import Mathlib

/-!
Shallow embedding of the go-scoundrel card game (the Bubble Tea program in
the repository's current main source file).  Go `int` values are modelled as
`Int`; Go slices as `List`; the zero `Card{}` value as `Card.empty`.  The
Bubble Tea `Update` keypress dispatcher is modelled as a pure function from
the model and the pressed key to the next model (`tea.Quit`, the process-wide
debug flag toggled by "t", and the fresh random session returned by "r" on
game over do not mutate the existing model and are modelled as identity).
-/

namespace Scoundrel

/-- `Card` from the source: suit, value, type ("Monster" / "Weapon" /
"Potion"), and `MonsterValue`, the value of the monster last slain by this
weapon. -/
structure Card where
  suit : String
  value : Int
  type : String
  monsterValue : Int
  deriving DecidableEq

/-- The Go zero value `Card{}`, used by the source as the "no weapon
equipped" sentinel. -/
def Card.empty : Card := ⟨"", 0, "", 0⟩

/-- The `model` struct of the source. -/
structure Model where
  health : Int
  dungeon : List Card
  room : List Card
  equippedWeapon : Card
  discardPile : List Card
  selectedCard : Int
  cardsChosen : Int
  weaponLimit : Int
  choosingFight : Bool
  fightingBarehanded : Bool
  avoidedLastRoom : Bool
  potionUsedThisTurn : Bool
  deriving DecidableEq

/-- `createDeck`: Clubs 2..14 and Spades 2..14 (Monsters), Diamonds 2..10
(Weapons), Hearts 2..10 (Potions), in that order. -/
def createDeck : List Card :=
  ((List.range' 2 13).map fun i => Card.mk "Club" (i : Int) "Monster" 0)
    ++ ((List.range' 2 13).map fun i => Card.mk "Spade" (i : Int) "Monster" 0)
    ++ ((List.range' 2 9).map fun i => Card.mk "Diamond" (i : Int) "Weapon" 0)
    ++ ((List.range' 2 9).map fun i => Card.mk "Heart" (i : Int) "Potion" 0)

/-- `calculateScore`: on game over (health ≤ 0) the loop subtracts the value
of every Monster still in the dungeon from the (non-positive) health;
otherwise the score is health, plus the value of the last discarded card when
health is exactly 20 and that card is a Potion. -/
def calculateScore (m : Model) : Int :=
  if m.health ≤ 0 then
    m.dungeon.foldl (fun score card => if card.type = "Monster" then score - card.value else score)
      m.health
  else
    if m.health = 20 ∧ m.discardPile ≠ [] ∧ (m.discardPile.getLastD Card.empty).type = "Potion" then
      m.health + (m.discardPile.getLastD Card.empty).value
    else
      m.health

/-- The dealing loop of `dealRoom`: while the room has fewer than 4 cards and
the dungeon is non-empty, move the front dungeon card to the room; returns
the remaining dungeon and the new room. -/
def dealCards : List Card → List Card → List Card × List Card
  | [], room => ([], room)
  | c :: rest, room =>
      if room.length < 4 then dealCards rest (room ++ [c])
      else (c :: rest, room)

/-- `dealRoom`: clears the avoided / potion-used turn flags, tops the room up
to 4 cards from the front of the dungeon (stopping early if the dungeon runs
out), and resets `cardsChosen` and `selectedCard`. -/
def dealRoom (m : Model) : Model :=
  { m with
    avoidedLastRoom := false
    potionUsedThisTurn := false
    dungeon := (dealCards m.dungeon m.room).1
    room := (dealCards m.dungeon m.room).2
    cardsChosen := 0
    selectedCard := -1 }

/-- `discard`: append a card to the discard pile. -/
def discard (m : Model) (card : Card) : Model :=
  { m with discardPile := m.discardPile ++ [card] }

/-- `equipWeapon`: discard the currently equipped weapon if any, equip the
new card, and reset its `MonsterValue` to 0. -/
def equipWeapon (m : Model) (card : Card) : Model :=
  let m1 := if m.equippedWeapon ≠ Card.empty then discard m m.equippedWeapon else m
  { m1 with equippedWeapon := { card with monsterValue := 0 } }

/-- `usePotion`: if no potion was used this turn, heal by the card's value
(clamped at 20), discard the card, mark the turn's potion as used, remove the
card from the room, and redeal when the room has dropped to one card;
otherwise just discard the potion unused.

The Go body removes `m.room[index]`, where `index` is not bound inside
`usePotion` (as written the file does not compile); at its unique call site,
`selectCard`, it can only denote that function's `index` argument — the room
position of the potion — so it is taken here as an explicit parameter.  The
Go slice expression panics when `index + 1` exceeds the room length; theorem
hypotheses below keep inputs out of that region. -/
def usePotion (m : Model) (card : Card) (index : Nat) : Model :=
  if m.potionUsedThisTurn = false then
    let m1 := { m with health := m.health + card.value }
    let m2 := if 20 < m1.health then { m1 with health := 20 } else m1
    let m3 := discard m2 card
    let m4 := { m3 with potionUsedThisTurn := true }
    let m5 := { m4 with room := m4.room.eraseIdx index }
    if (4 : Int) - m5.room.length = 3 then dealRoom m5 else m5
  else
    discard m card

/-- `fightMonster`: only records that the player must now choose a fight
style (the card argument is unused in the source as well). -/
def fightMonster (m : Model) (_card : Card) : Model :=
  { m with choosingFight := true }

/-- `finishFight`: resolve the pending fight on the selected room card.
If the selection is invalid the choice flag is simply cleared.  Barehanded,
weaponless, or over-the-weapon-limit fights subtract the card's full value
from health; otherwise the positive part of `card.value - weapon.value` is
subtracted and — on that branch only — `weaponLimit` and the weapon's
`MonsterValue` are set to the card's value.  The card is then discarded,
removed from the room, the selection and choice flags reset, and the room is
redealt when it has dropped to one card. -/
def finishFight (m : Model) : Model :=
  if m.selectedCard < 0 ∨ (m.room.length : Int) ≤ m.selectedCard then
    { m with choosingFight := false }
  else
    let card := m.room.getD m.selectedCard.toNat Card.empty
    let m1 :=
      if m.fightingBarehanded = true then
        { m with health := m.health - card.value }
      else if m.equippedWeapon = Card.empty then
        { m with health := m.health - card.value }
      else if m.weaponLimit < card.value then
        { m with health := m.health - card.value }
      else if 0 < card.value - m.equippedWeapon.value then
        { m with health := m.health - (card.value - m.equippedWeapon.value) }
      else
        m
    let m2 :=
      if m1.fightingBarehanded = false ∧ m1.equippedWeapon ≠ Card.empty ∧
          card.value ≤ m1.weaponLimit then
        { m1 with
          weaponLimit := card.value
          equippedWeapon := { m1.equippedWeapon with monsterValue := card.value } }
      else
        m1
    let m3 := discard m2 card
    let m4 := { m3 with
      room := m3.room.eraseIdx m.selectedCard.toNat
      selectedCard := -1
      choosingFight := false }
    if (4 : Int) - m4.room.length = 3 then dealRoom m4 else m4

/-- `selectCard`: guarded by the index being a valid room position and fewer
than 3 cards chosen this room ("Invalid card selection" leaves the model
unchanged — the source only prints).  The index is a `Nat` here; the Go
`index >= 0` half of the guard is therefore automatic (all call sites pass
the literals 0..3).  A Weapon is equipped and its card removed from the room;
a Potion goes through `usePotion` and the card at `index` is removed *again*
afterwards — faithfully reproducing the source's double removal; a Monster
only records the selection and pending fight choice. -/
def selectCard (m : Model) (index : Nat) : Model :=
  if index < m.room.length ∧ m.cardsChosen < 3 then
    let card := m.room.getD index Card.empty
    let m0 := { m with selectedCard := (index : Int), cardsChosen := m.cardsChosen + 1 }
    if card.type = "Weapon" then
      let m1 := equipWeapon m0 card
      { m1 with room := m1.room.eraseIdx index }
    else if card.type = "Potion" then
      let m1 := usePotion m0 card index
      { m1 with room := m1.room.eraseIdx index }
    else if card.type = "Monster" then
      let m1 := { m0 with selectedCard := (index : Int) }
      let m2 := fightMonster m1 card
      { m2 with choosingFight := true }
    else
      m0
  else
    m

/-- The `Update` keypress dispatcher, as a pure step function on the model.
"ctrl+c" quits, "t" toggles a process-global debug flag, and "r" on game over
replaces the session with a freshly shuffled one; none of the three mutates
the existing model, so all three are modelled as identity on it. -/
def update (m : Model) (key : String) : Model :=
  if key = "ctrl+c" then m
  else if key = "a" then
    if m.avoidedLastRoom = false then
      { dealRoom { m with dungeon := m.dungeon ++ m.room, room := [] } with
        avoidedLastRoom := true }
    else m
  else if key = "d" then dealRoom m
  else if key = "1" then selectCard m 0
  else if key = "2" then selectCard m 1
  else if key = "3" then selectCard m 2
  else if key = "4" then selectCard m 3
  else if key = "b" then
    if m.choosingFight = true then finishFight { m with fightingBarehanded := true } else m
  else if key = "w" then
    if m.choosingFight = true then finishFight { m with fightingBarehanded := false } else m
  else m

/-- Number of cards in play: dungeon + room + discard pile + the equipped
weapon (the zero-valued sentinel card counts as no weapon). -/
def totalCards (m : Model) : Nat :=
  m.dungeon.length + m.room.length + m.discardPile.length +
    (if m.equippedWeapon = Card.empty then 0 else 1)

/-! ### Helper lemmas -/

/-- The dealing loop moves exactly `min (4 - |room|) |dungeon|` cards from
the front of the dungeon to the end of the room. -/
theorem dealCards_eq (d : List Card) : ∀ r : List Card,
    dealCards d r = (d.drop (4 - r.length), r ++ d.take (4 - r.length)) := by
  induction d with
  | nil => intro r; simp [dealCards]
  | cons c rest ih =>
      intro r
      rw [dealCards]
      by_cases h : r.length < 4
      · rw [if_pos h, ih]
        have h4 : 4 - r.length = (4 - (r ++ [c]).length) + 1 := by
          simp only [List.length_append, List.length_cons, List.length_nil]
          omega
        rw [h4]
        simp [List.take_succ_cons, List.drop_succ_cons]
      · rw [if_neg h]
        have h0 : 4 - r.length = 0 := by omega
        simp [h0]

theorem dealRoom_health (m : Model) : (dealRoom m).health = m.health := rfl

theorem dealRoom_weaponLimit (m : Model) : (dealRoom m).weaponLimit = m.weaponLimit := rfl

theorem dealRoom_equippedWeapon (m : Model) :
    (dealRoom m).equippedWeapon = m.equippedWeapon := rfl

theorem dealRoom_discardPile (m : Model) : (dealRoom m).discardPile = m.discardPile := rfl

/-- The game-over scoring loop subtracts exactly the sum of the values of
the Monster cards of the list. -/
theorem foldl_monster_sum (l : List Card) : ∀ a : Int,
    l.foldl (fun score card => if card.type = "Monster" then score - card.value else score) a
      = a - ((l.filter fun card => card.type == "Monster").map Card.value).sum := by
  induction l with
  | nil => intro a; simp
  | cons c rest ih =>
      intro a
      rw [List.foldl_cons, List.filter_cons]
      by_cases h : c.type = "Monster"
      · have hb : (c.type == "Monster") = true := by simp [h]
        rw [if_pos h, hb, if_pos rfl, List.map_cons, List.sum_cons, ih]
        omega
      · have hb : (c.type == "Monster") = false := by simp [h]
        rw [if_neg h, hb, if_neg (by simp), ih]

/-! ### C2: the score function -/

/-- C2: for every game state, `calculateScore` returns health minus the sum
of the values of the Monster cards remaining in the dungeon when health ≤ 0,
and otherwise health, plus the value of the most recently discarded card
exactly when health is 20 and that card is a Potion.  (It is a pure function
of the state: the Go method only reads the model, and the embedding is a
plain function.) -/
theorem score_spec (m : Model) :
    calculateScore m =
      if m.health ≤ 0 then
        m.health - ((m.dungeon.filter fun card => card.type == "Monster").map Card.value).sum
      else
        match m.discardPile.getLast? with
        | some c => if m.health = 20 ∧ c.type = "Potion" then m.health + c.value else m.health
        | none => m.health := by
  by_cases hh : m.health ≤ 0
  · simp [calculateScore, hh, foldl_monster_sum]
  · rw [calculateScore, if_neg hh, if_neg hh]
    cases hl : m.discardPile.getLast? with
    | none =>
        have he : m.discardPile = [] := by
          cases hd : m.discardPile with
          | nil => rfl
          | cons x xs => rw [hd] at hl; simp [List.getLast?_concat] at hl
        simp [he]
    | some c =>
        have hne : m.discardPile ≠ [] := by
          intro he; rw [he] at hl; simp at hl
        have hd : m.discardPile.getLastD Card.empty = c := by
          rw [List.getLastD_eq_getLast?, hl]; rfl
        rw [hd]
        show _ = if m.health = 20 ∧ c.type = "Potion" then m.health + c.value else m.health
        by_cases hc : m.health = 20 ∧ c.type = "Potion"
        · rw [if_pos ⟨hc.1, hne, hc.2⟩, if_pos hc]
        · rw [if_neg (by tauto), if_neg hc]

/-! ### C9: room refill -/

/-- C9: a room refill never discards the unresolved cards still in the room —
they persist as a prefix of the next room — and only tops the room up from
the front of the dungeon; the refilled room gains `min (4 - |room|) |dungeon|`
cards, so it reaches 4 unless the dungeon is exhausted first. -/
theorem refill_preserves_room (m : Model) :
    (dealRoom m).room = m.room ++ m.dungeon.take (4 - m.room.length)
    ∧ (dealRoom m).dungeon = m.dungeon.drop (4 - m.room.length)
    ∧ (dealRoom m).discardPile = m.discardPile
    ∧ (dealRoom m).room.length = m.room.length + min (4 - m.room.length) m.dungeon.length := by
  refine ⟨?_, ?_, rfl, ?_⟩
  · simp [dealRoom, dealCards_eq]
  · simp [dealRoom, dealCards_eq]
  · simp [dealRoom, dealCards_eq]

/-! ### C4: weapon-ceiling monotonicity -/

/-- C4: resolving a fight never increases the weapon ceiling (`weaponLimit`):
the ceiling is only overwritten on the weapon-assisted branch, whose guard
`card.value ≤ weaponLimit` makes the new value no larger; and equipping a
weapon leaves the ceiling untouched, so within one equipped-weapon lifetime
the ceiling is non-increasing across fights. -/
theorem ceiling_monotone (m : Model) (c : Card) :
    (finishFight m).weaponLimit ≤ m.weaponLimit
    ∧ (equipWeapon m c).weaponLimit = m.weaponLimit := by
  constructor
  · rw [finishFight]
    split
    · exact le_refl _
    · simp only [discard]
      split_ifs <;> simp_all [dealRoom]
  · rw [equipWeapon]
    split <;> simp [discard]

/-! ### C1: fight resolution -/

/-- C1: for a fight resolved on a valid selected room card — if the player
fights barehanded, or no weapon is equipped, or the monster's value exceeds
the weapon ceiling, health drops by exactly the card's value and neither the
ceiling nor the equipped weapon changes (an over-ceiling weapon request
silently degrades to barehanded); otherwise health drops by
`max 0 (card.value - weapon.value)` and, on this branch only, the ceiling and
the weapon's `MonsterValue` are both set to the card's value. -/
theorem combat_resolution (m : Model) (h1 : 0 ≤ m.selectedCard)
    (h2 : m.selectedCard < (m.room.length : Int)) :
    ((m.fightingBarehanded = true ∨ m.equippedWeapon = Card.empty
        ∨ m.weaponLimit < (m.room.getD m.selectedCard.toNat Card.empty).value) →
      (finishFight m).health = m.health - (m.room.getD m.selectedCard.toNat Card.empty).value
      ∧ (finishFight m).weaponLimit = m.weaponLimit
      ∧ (finishFight m).equippedWeapon = m.equippedWeapon)
    ∧ (m.fightingBarehanded = false → m.equippedWeapon ≠ Card.empty →
        (m.room.getD m.selectedCard.toNat Card.empty).value ≤ m.weaponLimit →
      (finishFight m).health
        = m.health - max 0 ((m.room.getD m.selectedCard.toNat Card.empty).value
            - m.equippedWeapon.value)
      ∧ (finishFight m).weaponLimit = (m.room.getD m.selectedCard.toNat Card.empty).value
      ∧ (finishFight m).equippedWeapon
        = { m.equippedWeapon with
            monsterValue := (m.room.getD m.selectedCard.toNat Card.empty).value }) := by
  have hg : ¬(m.selectedCard < 0 ∨ (m.room.length : Int) ≤ m.selectedCard) := by
    push_neg
    exact ⟨h1, h2⟩
  constructor
  · intro hb
    rw [finishFight, if_neg hg]
    simp only [discard]
    rcases hb with hb | hb | hb <;>
      split_ifs <;> simp_all [dealRoom] <;> omega
  · intro hbare hweap hlim
    rw [finishFight, if_neg hg]
    simp only [discard]
    split_ifs <;> simp_all [dealRoom] <;> omega

/-- Concrete instance of C1 (the weapon-assisted branch): health 20, Diamond
5 equipped, ceiling 14, fighting the Spade 10 monster with the weapon. -/
def mCombat : Model :=
  { health := 20
    dungeon := [⟨"Club", 6, "Monster", 0⟩]
    room := [⟨"Spade", 10, "Monster", 0⟩, ⟨"Club", 3, "Monster", 0⟩]
    equippedWeapon := ⟨"Diamond", 5, "Weapon", 0⟩
    discardPile := []
    selectedCard := 0
    cardsChosen := 1
    weaponLimit := 14
    choosingFight := true
    fightingBarehanded := false
    avoidedLastRoom := false
    potionUsedThisTurn := false }

theorem combat_resolution_witness :
    (finishFight mCombat).health
      = mCombat.health - max 0 ((mCombat.room.getD mCombat.selectedCard.toNat Card.empty).value
          - mCombat.equippedWeapon.value)
    ∧ (finishFight mCombat).weaponLimit
      = (mCombat.room.getD mCombat.selectedCard.toNat Card.empty).value
    ∧ (finishFight mCombat).equippedWeapon
      = { mCombat.equippedWeapon with
          monsterValue := (mCombat.room.getD mCombat.selectedCard.toNat Card.empty).value } :=
  (combat_resolution mCombat (by decide) (by decide)).2 rfl (by decide) (by decide)

/-! ### C3: the health cap -/

/-- One potion use keeps health at or below 20: a fresh heal is clamped at
20, and a wasted potion leaves health unchanged. -/
theorem usePotion_health_le (m : Model) (card : Card) (index : Nat)
    (h : m.health ≤ 20) : (usePotion m card index).health ≤ 20 := by
  rw [usePotion]
  by_cases hp : m.potionUsedThisTurn = false
  · rw [if_pos hp]
    by_cases hc : 20 < m.health + card.value
    · simp only [if_pos hc, discard]
      split <;> simp [dealRoom]
    · simp only [if_neg hc, discard]
      split <;> simp [dealRoom] <;> omega
  · rw [if_neg hp]
    simpa [discard] using h

/-- C3: starting from any state whose health is at most 20 (true of every
reachable state, health starts at 20 and healing is clamped), no sequence of
`usePotion` calls can push health above 20. -/
theorem health_cap (m : Model) (h : m.health ≤ 20) :
    ∀ uses : List (Card × Nat),
      (uses.foldl (fun s p => usePotion s p.1 p.2) m).health ≤ 20 := by
  intro uses
  induction uses generalizing m with
  | nil => exact h
  | cons u rest ih =>
      rw [List.foldl_cons]
      exact ih _ (usePotion_health_le m u.1 u.2 h)

/-- Concrete starting state for the health-cap witness: full health, a
Heart 9 potion about to be drunk. -/
def mCap : Model :=
  { health := 20
    dungeon := []
    room := [⟨"Heart", 9, "Potion", 0⟩]
    equippedWeapon := Card.empty
    discardPile := []
    selectedCard := -1
    cardsChosen := 0
    weaponLimit := 14
    choosingFight := false
    fightingBarehanded := false
    avoidedLastRoom := false
    potionUsedThisTurn := false }

theorem health_cap_witness :
    (([((⟨"Heart", 9, "Potion", 0⟩ : Card), 0), ((⟨"Heart", 4, "Potion", 0⟩ : Card), 0)]
        : List (Card × Nat)).foldl (fun s p => usePotion s p.1 p.2) mCap).health ≤ 20 :=
  health_cap mCap (by decide) _

/-! ### C6: avoiding a room -/

/-- The "a" key dispatch: an avoid is attempted only when `avoidedLastRoom`
is still false. -/
theorem update_a_eq (x : Model) :
    update x "a" =
      if x.avoidedLastRoom = false then
        { dealRoom { x with dungeon := x.dungeon ++ x.room, room := [] } with
          avoidedLastRoom := true }
      else x := by
  rw [update, if_neg (by decide), if_pos rfl]

/-- C6: when `avoidedLastRoom` is already set, the avoid action is a complete
no-op; otherwise the whole room is appended (in order) to the back of the
dungeon, a fresh room of the first 4 of the combined stack is dealt, and the
flag is set — so a second avoid with no refill in between is always
rejected (`update (update m "a") "a" = update m "a"`). -/
theorem avoid_room_spec (m : Model) :
    (m.avoidedLastRoom = true → update m "a" = m)
    ∧ (m.avoidedLastRoom = false →
        (update m "a").room = (m.dungeon ++ m.room).take 4
        ∧ (update m "a").dungeon = (m.dungeon ++ m.room).drop 4
        ∧ (update m "a").avoidedLastRoom = true
        ∧ (update m "a").discardPile = m.discardPile)
    ∧ update (update m "a") "a" = update m "a" := by
  refine ⟨?_, ?_, ?_⟩
  · intro h
    rw [update_a_eq, if_neg (by simp [h])]
  · intro h
    rw [update_a_eq, if_pos h]
    refine ⟨?_, ?_, rfl, ?_⟩ <;> simp [dealRoom, dealCards_eq]
  · by_cases h : m.avoidedLastRoom = false
    · have h1 : (update m "a").avoidedLastRoom = true := by
        rw [update_a_eq, if_pos h]
      rw [update_a_eq (update m "a"), if_neg (by simp [h1])]
    · have hm : update m "a" = m := by
        rw [update_a_eq, if_neg h]
      rw [hm]
      exact hm

/-- Concrete state for the avoid witness: a fresh (not yet avoided) room. -/
def mAvoid : Model :=
  { health := 12
    dungeon := [⟨"Club", 9, "Monster", 0⟩, ⟨"Heart", 2, "Potion", 0⟩]
    room := [⟨"Spade", 14, "Monster", 0⟩, ⟨"Diamond", 3, "Weapon", 0⟩,
      ⟨"Heart", 6, "Potion", 0⟩, ⟨"Club", 5, "Monster", 0⟩]
    equippedWeapon := Card.empty
    discardPile := []
    selectedCard := -1
    cardsChosen := 0
    weaponLimit := 14
    choosingFight := false
    fightingBarehanded := false
    avoidedLastRoom := false
    potionUsedThisTurn := false }

theorem avoid_room_witness :
    update (update mAvoid "a") "a" = update mAvoid "a"
    ∧ (update mAvoid "a").avoidedLastRoom = true :=
  ⟨(avoid_room_spec mAvoid).2.2, ((avoid_room_spec mAvoid).2.1 rfl).2.2.1⟩

/-! ### C7: the session is not terminal at health ≤ 0 -/

/-- A game-over state: health below zero, with a room and dungeon left. -/
def mOver : Model :=
  { health := -1
    dungeon := [⟨"Club", 3, "Monster", 0⟩, ⟨"Heart", 8, "Potion", 0⟩]
    room := [⟨"Club", 2, "Monster", 0⟩]
    equippedWeapon := Card.empty
    discardPile := []
    selectedCard := -1
    cardsChosen := 0
    weaponLimit := 14
    choosingFight := false
    fightingBarehanded := false
    avoidedLastRoom := false
    potionUsedThisTurn := false }

/-- C7 fails on the code: the keypress dispatcher never checks `health ≤ 0`
except for the restart key, so in a game-over state a redeal ("d"), an avoid
("a") and a card selection ("1") all still mutate the session instead of
being no-ops. -/
theorem game_over_not_terminal :
    mOver.health ≤ 0
    ∧ update mOver "d" ≠ mOver
    ∧ update mOver "a" ≠ mOver
    ∧ update mOver "1" ≠ mOver := by decide

/-! ### C8: actions are not gated by a pending fight choice -/

/-- A state awaiting a barehanded-vs-weapon decision on the Spade 9 at room
index 0. -/
def mChoice : Model :=
  { health := 10
    dungeon := [⟨"Heart", 3, "Potion", 0⟩]
    room := [⟨"Spade", 9, "Monster", 0⟩, ⟨"Club", 4, "Monster", 0⟩]
    equippedWeapon := Card.empty
    discardPile := []
    selectedCard := 0
    cardsChosen := 1
    weaponLimit := 14
    choosingFight := true
    fightingBarehanded := false
    avoidedLastRoom := false
    potionUsedThisTurn := false }

/-- C8 fails on the code: with a fight choice pending (`choosingFight`), an
avoid-room action and a new card selection both still take effect and change
the state. -/
theorem fightchoice_counterexample :
    mChoice.choosingFight = true
    ∧ update mChoice "a" ≠ mChoice
    ∧ update mChoice "2" ≠ mChoice := by decide

/-- C8 amended: `selectCard` and the avoid dispatch never test
`choosingFight`, so those actions are processed even while a fight choice is
pending; in particular an avoid (when not yet avoided this turn) moves the
whole room — the selected monster included — to the back of the dungeon,
deals a fresh room, and leaves the fight choice still pending. -/
theorem fightchoice_ungated (m : Model) (hc : m.choosingFight = true)
    (ha : m.avoidedLastRoom = false) :
    (update m "a").avoidedLastRoom = true
    ∧ (update m "a").choosingFight = true
    ∧ (update m "a").room = (m.dungeon ++ m.room).take 4
    ∧ (update m "a").dungeon = (m.dungeon ++ m.room).drop 4 := by
  rw [update_a_eq, if_pos ha]
  refine ⟨rfl, ?_, ?_, ?_⟩
  · simp [dealRoom, hc]
  · simp [dealRoom, dealCards_eq]
  · simp [dealRoom, dealCards_eq]

theorem fightchoice_ungated_witness :
    (update mChoice "a").avoidedLastRoom = true
    ∧ (update mChoice "a").choosingFight = true
    ∧ (update mChoice "a").room = (mChoice.dungeon ++ mChoice.room).take 4
    ∧ (update mChoice "a").dungeon = (mChoice.dungeon ++ mChoice.room).drop 4 :=
  fightchoice_ungated mChoice rfl rfl

/-! ### C5: one potion per room -/

/-- Selecting a Potion card after the turn's potion has already been used
leaves health untouched and just discards the card. -/
theorem selectCard_potion_used (x : Model) (j : Nat)
    (hj : j < x.room.length) (hcc : x.cardsChosen < 3)
    (hp : x.potionUsedThisTurn = true)
    (ht : (x.room.getD j Card.empty).type = "Potion") :
    (selectCard x j).health = x.health
    ∧ (selectCard x j).discardPile = x.discardPile ++ [x.room.getD j Card.empty] := by
  simp only [selectCard]
  rw [if_pos ⟨hj, hcc⟩, ht, if_neg (by decide), if_pos rfl]
  simp only [usePotion, discard]
  rw [if_neg (by simp [hp])]
  exact ⟨rfl, rfl⟩

/-- C5: in a room with two Potions, both selected while the room lasts (the
room holds more than 2 cards, so the first selection does not trigger a
refill, and the first potion is not in the final slot, keeping the source's
double removal in bounds): the first selection heals by that potion's value
clamped at 20; the second selection leaves health unchanged and merely
discards the second potion. -/
theorem one_potion_per_room (m : Model) (i j : Nat)
    (h1 : m.potionUsedThisTurn = false)
    (h2 : i + 1 < m.room.length)
    (hl : 2 < m.room.length)
    (h3 : (m.room.getD i Card.empty).type = "Potion")
    (h4 : m.cardsChosen < 2)
    (h6 : j < (selectCard m i).room.length)
    (h7 : ((selectCard m i).room.getD j Card.empty).type = "Potion") :
    (selectCard m i).health =
      (if 20 < m.health + (m.room.getD i Card.empty).value then 20
       else m.health + (m.room.getD i Card.empty).value)
    ∧ (selectCard (selectCard m i) j).health = (selectCard m i).health
    ∧ (selectCard (selectCard m i) j).discardPile
        = (selectCard m i).discardPile ++ [(selectCard m i).room.getD j Card.empty] := by
  have hguard : i < m.room.length ∧ m.cardsChosen < 3 := ⟨by omega, by omega⟩
  have hrl : (m.room.eraseIdx i).length = m.room.length - 1 :=
    List.length_eraseIdx_of_lt (by omega)
  have hnr : ¬((4 : Int) - ((m.room.eraseIdx i).length : Int) = 3) := by
    rw [hrl]; omega
  have hs1 : selectCard m i =
      { m with
        health := if 20 < m.health + (m.room.getD i Card.empty).value then 20
          else m.health + (m.room.getD i Card.empty).value
        discardPile := m.discardPile ++ [m.room.getD i Card.empty]
        potionUsedThisTurn := true
        selectedCard := (i : Int)
        cardsChosen := m.cardsChosen + 1
        room := (m.room.eraseIdx i).eraseIdx i } := by
    simp only [selectCard]
    rw [if_pos hguard, h3, if_neg (by decide), if_pos rfl]
    simp only [usePotion, discard]
    rw [if_pos h1]
    simp only [apply_ite Model.room, apply_ite Model.health, apply_ite Model.dungeon,
      apply_ite Model.equippedWeapon, apply_ite Model.discardPile,
      apply_ite Model.selectedCard, apply_ite Model.cardsChosen,
      apply_ite Model.weaponLimit, apply_ite Model.choosingFight,
      apply_ite Model.fightingBarehanded, apply_ite Model.avoidedLastRoom,
      apply_ite Model.potionUsedThisTurn, ite_self]
    simp only [hnr, if_false]
  rw [hs1] at h6 h7 ⊢
  refine ⟨rfl, ?_, ?_⟩
  · exact (selectCard_potion_used _ j h6 (show m.cardsChosen + 1 < 3 by omega) rfl h7).1
  · exact (selectCard_potion_used _ j h6 (show m.cardsChosen + 1 < 3 by omega) rfl h7).2

/-- Room for the one-potion witness: Heart 5 first, the second potion Heart 7
two slots later (after the source's double removal it sits at index 0 of the
remaining room). -/
def mPotions : Model :=
  { health := 10
    dungeon := [⟨"Spade", 4, "Monster", 0⟩]
    room := [⟨"Heart", 5, "Potion", 0⟩, ⟨"Club", 2, "Monster", 0⟩,
      ⟨"Heart", 7, "Potion", 0⟩, ⟨"Club", 3, "Monster", 0⟩]
    equippedWeapon := Card.empty
    discardPile := []
    selectedCard := -1
    cardsChosen := 0
    weaponLimit := 14
    choosingFight := false
    fightingBarehanded := false
    avoidedLastRoom := false
    potionUsedThisTurn := false }

theorem one_potion_per_room_witness :
    (selectCard mPotions 0).health =
      (if 20 < mPotions.health + (mPotions.room.getD 0 Card.empty).value then 20
       else mPotions.health + (mPotions.room.getD 0 Card.empty).value)
    ∧ (selectCard (selectCard mPotions 0) 0).health = (selectCard mPotions 0).health
    ∧ (selectCard (selectCard mPotions 0) 0).discardPile
        = (selectCard mPotions 0).discardPile
            ++ [(selectCard mPotions 0).room.getD 0 Card.empty] :=
  one_potion_per_room mPotions 0 0 rfl (by decide) (by decide) (by decide) (by decide)
    (by decide) (by decide)

/-! ### C10: card conservation is violated -/

/-- The room used for the conservation counterexample. -/
def roomLost : List Card :=
  [⟨"Heart", 5, "Potion", 0⟩, ⟨"Club", 2, "Monster", 0⟩,
    ⟨"Club", 3, "Monster", 0⟩, ⟨"Club", 4, "Monster", 0⟩]

/-- A full 44-card state: the room above, the other 40 deck cards in the
dungeon, nothing discarded, no weapon. -/
def mLost : Model :=
  { health := 20
    dungeon := createDeck.filter fun c => !(roomLost.contains c)
    room := roomLost
    equippedWeapon := Card.empty
    discardPile := []
    selectedCard := -1
    cardsChosen := 0
    weaponLimit := 14
    choosingFight := false
    fightingBarehanded := false
    avoidedLastRoom := false
    potionUsedThisTurn := false }

/-- C10 fails on the code: selecting the fresh Heart 5 potion removes the
room card at the same index twice (`usePotion` and `selectCard` each erase
it), so the neighbouring Club 2 leaves the room without being discarded —
the 44 cards in play drop to 43 and the Club 2 is in no zone at all. -/
theorem card_conservation_violated :
    totalCards mLost = 44
    ∧ totalCards (selectCard mLost 0) = 43
    ∧ (⟨"Club", 2, "Monster", 0⟩ : Card) ∈ mLost.room
    ∧ (⟨"Club", 2, "Monster", 0⟩ : Card) ∉ (selectCard mLost 0).room
    ∧ (⟨"Club", 2, "Monster", 0⟩ : Card) ∉ (selectCard mLost 0).dungeon
    ∧ (⟨"Club", 2, "Monster", 0⟩ : Card) ∉ (selectCard mLost 0).discardPile
    ∧ (selectCard mLost 0).equippedWeapon ≠ (⟨"Club", 2, "Monster", 0⟩ : Card) := by
  decide

end Scoundrel
